import Mathlib

/-!
Verification development for the `pdftoanki` add-on (`src/__init__.py`).

The add-on persists PDF annotations (highlights, comments), reading
progress and a render cache, and maps widget pixels to document
coordinates.  The definitions below are a shallow embedding of the
relevant Python functions:

* sqlite tables become Lean lists of row structures; `INSERT OR IGNORE`
  under a `UNIQUE` constraint becomes a guarded append; `AUTOINCREMENT`
  ids become an explicit next-id counter (monotone, never reused);
* Python floats on these code paths hold either small integers or
  ratios of small integers, and are modelled exactly by `ℚ`;
* Python's builtin `int(...)` truncates toward zero, modelled by
  `pytrunc`;
* fallible paths return `Option`.
-/

namespace PdfToAnki

/-! ## Annotation store

Embeds the per-document sqlite database created by
`get_pdf_specific_db_connection` (src/__init__.py lines 182-204):
table `pdf_highlights` with
`UNIQUE (pdf_path, page_number, x0, y0, x1, y1)` and table
`pdf_comments` with no uniqueness beyond the `id` primary key.
Both tables have `id INTEGER PRIMARY KEY AUTOINCREMENT`.
-/

/-- A row of the `pdf_highlights` table. -/
structure HRow where
  id : ℕ
  pdfPath : String
  page : ℤ
  x0 : ℚ
  y0 : ℚ
  x1 : ℚ
  y1 : ℚ
  text : String
  deriving DecidableEq

/-- A row of the `pdf_comments` table. -/
structure CRow where
  id : ℕ
  pdfPath : String
  page : ℤ
  x0 : ℚ
  y0 : ℚ
  text : String
  deriving DecidableEq

/-- The per-document store: both tables plus the `AUTOINCREMENT`
counters (sqlite's `sqlite_sequence`, one per table). -/
structure PdfDb where
  highlights : List HRow
  comments : List CRow
  nextHId : ℕ
  nextCId : ℕ
  deriving DecidableEq

/-- A freshly created per-document store (`CREATE TABLE IF NOT EXISTS`
on a new file): empty tables, ids start at 1. -/
def emptyPdfDb : PdfDb := ⟨[], [], 1, 1⟩

/-- The `UNIQUE (pdf_path, page_number, x0, y0, x1, y1)` key comparison
of the `pdf_highlights` table. -/
def hlTupleMatches (path : String) (page : ℤ) (x0 y0 x1 y1 : ℚ) (r : HRow) : Bool :=
  r.pdfPath == path && r.page == page && r.x0 == x0 && r.y0 == y0 && r.x1 == x1 && r.y1 == y1

/-- Embeds `add_highlight_to_db` (lines 286-292): a single
`INSERT OR IGNORE INTO pdf_highlights` — the insert is dropped when a
row with the same unique tuple already exists. -/
def add_highlight_to_db (db : PdfDb) (path : String) (page : ℤ)
    (x0 y0 x1 y1 : ℚ) (text : String) : PdfDb :=
  if db.highlights.any (hlTupleMatches path page x0 y0 x1 y1) then db
  else
    { db with
      highlights := db.highlights ++ [⟨db.nextHId, path, page, x0, y0, x1, y1, text⟩]
      nextHId := db.nextHId + 1 }

/-- Embeds `remove_highlight_from_db` (lines 294-300): a single `DELETE` with
an exact match on all six key columns. -/
def remove_highlight_from_db (db : PdfDb) (path : String) (page : ℤ)
    (x0 y0 x1 y1 : ℚ) : PdfDb :=
  { db with
    highlights := db.highlights.filter (fun r => !(hlTupleMatches path page x0 y0 x1 y1 r)) }

/-- Embeds `add_comment_to_db` (lines 310-316): a plain `INSERT INTO
pdf_comments`.  The second component is the Python function's return
value: the function body has no `return` statement, so it returns
`None` — modelled as `none`, never the assigned id. -/
def add_comment_to_db (db : PdfDb) (path : String) (page : ℤ)
    (x y : ℚ) (text : String) : PdfDb × Option ℕ :=
  ({ db with
     comments := db.comments ++ [⟨db.nextCId, path, page, x, y, text⟩]
     nextCId := db.nextCId + 1 }, none)

/-- Number of stored highlight rows with the given unique tuple. -/
def hlCount (db : PdfDb) (path : String) (page : ℤ) (x0 y0 x1 y1 : ℚ) : ℕ :=
  (db.highlights.filter (hlTupleMatches path page x0 y0 x1 y1)).length

/-! ## Stable sorting

Python's builtin `sorted(key=...)` is a stable sort, and so is sqlite's
`ORDER BY` over a list carried in a fixed underlying order when the
trailing sort column is a distinct key.  Both are embedded with
Mathlib's stable `List.insertionSort` over the preorder induced by an
integer key: a stable sort's output is uniquely determined by the key
order and stability, so the choice of algorithm is immaterial. -/

instance instDecKeyLE {α : Type} (key : α → ℤ) :
    DecidableRel (fun a b : α => key a ≤ key b) :=
  fun a b => Int.decLe (key a) (key b)

instance instTotalKeyLE {α : Type} (key : α → ℤ) :
    IsTotal α (fun a b : α => key a ≤ key b) :=
  ⟨fun a b => Int.le_total (key a) (key b)⟩

instance instTransKeyLE {α : Type} (key : α → ℤ) :
    IsTrans α (fun a b : α => key a ≤ key b) :=
  ⟨fun _ _ _ => Int.le_trans⟩

/-- Stable sort by an integer key: the embedding of Python's
`sorted(xs, key=...)`. -/
def sortByKey {α : Type} (key : α → ℤ) (l : List α) : List α :=
  l.insertionSort (fun a b => key a ≤ key b)

/-- Embeds `ORDER BY k1, k2` on a table read in rowid order: a stable sort by
the minor key followed by a stable sort by the major key. -/
def sqlOrderBy2 {α : Type} (k1 k2 : α → ℤ) (l : List α) : List α :=
  sortByKey k1 (sortByKey k2 l)

/-- The tag attached by `get_all_highlights_for_pdf` /
`get_all_comments_for_pdf` (the `"type"` dict field). -/
inductive AnnotType where
  | highlight
  | comment
  deriving DecidableEq

/-- One element of the merged annotations listing: the dict with keys
`type`, `page` and `text` built by `get_all_highlights_for_pdf` and
`get_all_comments_for_pdf` (lines 366-380). -/
structure AnnotEntry where
  typ : AnnotType
  page : ℤ
  text : String
  deriving DecidableEq

/-- Embeds `get_all_highlights_for_pdf` (lines 366-372):
`SELECT page_number, highlighted_text FROM pdf_highlights WHERE
pdf_path = ? ORDER BY page_number, id`, each row tagged
`"highlight"`. -/
def get_all_highlights_for_pdf (db : PdfDb) (path : String) : List AnnotEntry :=
  (sqlOrderBy2 (fun r => r.page) (fun r => (r.id : ℤ))
      (db.highlights.filter (fun r => r.pdfPath == path))).map
    (fun r => ⟨AnnotType.highlight, r.page, r.text⟩)

/-- Embeds `get_all_comments_for_pdf` (lines 374-380): same query over
`pdf_comments`, tagged `"comment"`. -/
def get_all_comments_for_pdf (db : PdfDb) (path : String) : List AnnotEntry :=
  (sqlOrderBy2 (fun r => r.page) (fun r => (r.id : ℤ))
      (db.comments.filter (fun r => r.pdfPath == path))).map
    (fun r => ⟨AnnotType.comment, r.page, r.text⟩)

/-- The merged sequence built by `populate_annotations_list`
(line 1103): `sorted(all_highlights + all_comments,
key=lambda x: x['page'])` — list concatenation followed by Python's
stable sort on the page number. -/
def populate_annotations_merged (db : PdfDb) (path : String) : List AnnotEntry :=
  sortByKey (fun e => e.page)
    (get_all_highlights_for_pdf db path ++ get_all_comments_for_pdf db path)

/-! ## Coordinate mapper

Embeds `PdfViewerDialog._convert_widget_pos_to_pdf_rect` and
`_convert_widget_pos_to_pdf_point` (lines 1441-1472).  Widget and
pixmap sizes are Qt integer sizes; the letterbox offsets are Python
floats of the form `(int - int) / 2`, represented exactly by `ℚ`.
Python's `int(...)` and the implicit float-to-int coercion at `QRect`
construction both truncate toward zero (`pytrunc`). -/

/-- Truncation toward zero, the semantics of Python's `int(...)` on a
float. -/
def pytrunc (q : ℚ) : ℤ :=
  if q < 0 then -⌊-q⌋ else ⌊q⌋

/-- A Qt `QSize` (integer width and height). -/
structure QSizeI where
  w : ℤ
  h : ℤ
  deriving DecidableEq

/-- Embeds `QSize.isEmpty`: width or height is at most zero. -/
def qsizeIsEmpty (s : QSizeI) : Bool :=
  s.w ≤ 0 || s.h ≤ 0

/-- A Qt `QRect` given by position and size; Qt's `right` is
`x + w - 1` and `bottom` is `y + h - 1`. -/
structure QRectI where
  x : ℤ
  y : ℤ
  w : ℤ
  h : ℤ
  deriving DecidableEq

/-- Embeds `QRect.intersects`, following Qt's implementation: a rect with both
width and height zero is null and never intersects; otherwise each
edge interval is normalised (an interval of negative extent collapses
to its origin) and the closed integer intervals must overlap on both
axes. -/
def qtIntersects (a b : QRectI) : Bool :=
  if (a.w == 0 && a.h == 0) || (b.w == 0 && b.h == 0) then false
  else
    let r1 := if a.w < 0 then a.x else a.x + a.w - 1
    let r2 := if b.w < 0 then b.x else b.x + b.w - 1
    let b1 := if a.h < 0 then a.y else a.y + a.h - 1
    let b2 := if b.h < 0 then b.y else b.y + b.h - 1
    decide (a.x ≤ r2) && decide (b.x ≤ r1) && decide (a.y ≤ b2) && decide (b.y ≤ b1)

/-- A `fitz.Rect` (document points, float coordinates). -/
structure FRect where
  x0 : ℚ
  y0 : ℚ
  x1 : ℚ
  y1 : ℚ
  deriving DecidableEq

/-- PyMuPDF `Rect.__bool__`: a rect is falsy exactly when all four
coordinates are zero. -/
def fitzRectBool (r : FRect) : Bool :=
  !(r.x0 == 0 && r.y0 == 0 && r.x1 == 0 && r.y1 == 0)

/-- The aspect-ratio-preserving letterbox placement computed at
lines 1451-1460: scaled size (Python `int(...)` truncation) and the
exact (float) centering offsets. -/
def letterbox (pix lbl : QSizeI) : ℤ × ℤ × ℚ × ℚ :=
  let ratioPix : ℚ := if pix.h > 0 then (pix.w : ℚ) / (pix.h : ℚ) else 1
  let ratioLbl : ℚ := if lbl.h > 0 then (lbl.w : ℚ) / (lbl.h : ℚ) else 1
  if ratioLbl > ratioPix then
    let scaledH := lbl.h
    let scaledW := pytrunc ((lbl.h : ℚ) * ratioPix)
    (scaledW, scaledH, ((lbl.w : ℚ) - (scaledW : ℚ)) / 2, 0)
  else
    let scaledW := lbl.w
    let scaledH := pytrunc ((lbl.w : ℚ) / ratioPix)
    (scaledW, scaledH, 0, ((lbl.h : ℚ) - (scaledH : ℚ)) / 2)

/-- The `QRect(offset_x, offset_y, scaled_w, scaled_h)` built at
line 1461 for the intersection test; the float offsets are coerced to
int by truncation. -/
def letterboxImgRect (pix lbl : QSizeI) : QRectI :=
  let lb := letterbox pix lbl
  ⟨pytrunc lb.2.2.1, pytrunc lb.2.2.2, lb.1, lb.2.1⟩

/-- The arithmetic of lines 1462-1472: subtract the (exact) offsets,
scale from displayed pixels to native pixmap pixels, then convert
pixels to document points at 72 over the render dpi.  Qt's
`selection_rect.right()` and `.bottom()` are `x + w - 1` and
`y + h - 1`. -/
def mapSelectionRect (pix : QSizeI) (lb : ℤ × ℤ × ℚ × ℚ) (sel : QRectI) (dpi : ℤ) : FRect :=
  let scaledW := lb.1
  let scaledH := lb.2.1
  let offX := lb.2.2.1
  let offY := lb.2.2.2
  let scaleX : ℚ := if scaledW > 0 then (pix.w : ℚ) / (scaledW : ℚ) else 1
  let scaleY : ℚ := if scaledH > 0 then (pix.h : ℚ) / (scaledH : ℚ) else 1
  let px0 := ((sel.x : ℚ) - offX) * scaleX
  let py0 := ((sel.y : ℚ) - offY) * scaleY
  let px1 := ((sel.x + sel.w - 1 : ℤ) - offX) * scaleX
  let py1 := ((sel.y + sel.h - 1 : ℤ) - offY) * scaleY
  let ppp : ℚ := 72 / (dpi : ℚ)
  ⟨px0 * ppp, py0 * ppp, px1 * ppp, py1 * ppp⟩

/-- Embeds `_convert_widget_pos_to_pdf_rect` (lines 1445-1472).  `pixmap` is
`none` when the label has no pixmap or a null pixmap (line 1447);
otherwise it carries the pixmap's natural size. -/
def convert_widget_pos_to_pdf_rect (pixmap : Option QSizeI) (lbl : QSizeI)
    (sel : QRectI) (dpi : ℤ) : Option FRect :=
  match pixmap with
  | none => none
  | some pix =>
    if qsizeIsEmpty pix || qsizeIsEmpty lbl then none
    else if !(qtIntersects (letterboxImgRect pix lbl) sel) then none
    else some (mapSelectionRect pix (letterbox pix lbl) sel dpi)

/-- Embeds `_convert_widget_pos_to_pdf_point` (lines 1441-1443): wraps the
click position into a 1-by-1 `QRect`, maps it, and returns the rect's
top-left as a point; `if rect` uses PyMuPDF rect truthiness. -/
def convert_widget_pos_to_pdf_point (pixmap : Option QSizeI) (lbl : QSizeI)
    (pos : ℤ × ℤ) (dpi : ℤ) : Option (ℚ × ℚ) :=
  match convert_widget_pos_to_pdf_rect pixmap lbl ⟨pos.1, pos.2, 1, 1⟩ dpi with
  | none => none
  | some r => if fitzRectBool r then some (r.x0, r.y0) else none

/-! ## Render cache

Embeds `PdfViewerDialog.load_page` (lines 1156-1202).  The cache file
name `md5(pdf_path)_p(page)_d(dpi).png` is determined injectively by
the triple (path hash, page, dpi), modelled as `CacheKey`.  The disk
cache directory is an association list from keys to image bytes; the
image type and the two external collaborators — the PDF library's
rasteriser (`doc.load_page(...).get_pixmap(dpi=...)`) and the Qt
painting of overlays onto a pixmap copy — are parameters. -/

/-- The render-cache key: every field of the deterministic file name
`md5hash_p(page)_d(dpi).png` (lines 1160-1162). -/
structure CacheKey where
  pdfHash : String
  page : ℤ
  dpi : ℤ
  deriving DecidableEq

/-- Embeds `os.path.exists` plus `QPixmap(path)`: look the key up in the
cache directory. -/
def cacheLookup {Img : Type} (fs : List (CacheKey × Img)) (k : CacheKey) : Option Img :=
  match fs.find? (fun e => decide (e.1 = k)) with
  | some e => some e.2
  | none => none

/-- Result of one `load_page` call: the pixmap handed to the page
widget, the cache directory afterwards, and how many times the PDF
library's render callback ran during the call (ghost counter). -/
structure LoadResult (Img : Type) where
  displayed : Img
  fs : List (CacheKey × Img)
  renderCalls : ℕ
  deriving DecidableEq

/-- Embeds `load_page` (lines 1156-1202): on a cache hit the stored bytes are
used and the render callback is not invoked; on a miss the page is
rendered, saved under the key, and used.  If any highlights, comments
or search hits exist for the page they are painted onto a copy
(`qpixmap.copy()`, line 1180) of the base image; the cache is never
written after compositing. -/
def load_page {Img : Type} (render : ℤ → ℤ → Img)
    (composite : Img → List FRect → List FRect → List (ℚ × ℚ) → Img)
    (key : CacheKey) (highlights searchRects : List FRect)
    (comments : List (ℚ × ℚ)) (fs : List (CacheKey × Img)) : LoadResult Img :=
  let base :=
    match cacheLookup fs key with
    | some img => (img, fs, 0)
    | none =>
      let img := render key.page key.dpi
      (img, (key, img) :: fs, 1)
  let displayed :=
    if !highlights.isEmpty || !comments.isEmpty || !searchRects.isEmpty then
      composite base.1 highlights searchRects comments
    else base.1
  ⟨displayed, base.2.1, base.2.2⟩

/-! ## Reading progress and last-viewed page

Embeds `get_item_details` (lines 340-350), the viewer initialisation
(lines 544-547), and `go_to_page` (lines 1291-1295) together with the
deferred `go_to_page(self.last_known_page)` issued after the pages are
set up (line 1233). -/

/-- A row of the shared `item_queue` table: `last_page` and `progress`
are nullable columns. -/
structure QueueRow where
  title : String
  path : String
  lastPage : Option ℤ
  progress : Option String
  deriving DecidableEq

/-- Embeds `SELECT last_page, progress FROM item_queue WHERE path = ?` with
`fetchone`. -/
def queueFind (q : List QueueRow) (path : String) : Option QueueRow :=
  q.find? (fun r => r.path == path)

/-- Embeds `get_item_details` (lines 340-350): the stored `last_page` with
`NULL` and missing-row defaulting to 1, and the stored progress JSON
defaulting to the empty list. -/
def get_item_details (q : List QueueRow) (path : String) : ℤ × String :=
  match queueFind q path with
  | some r => (r.lastPage.getD 1, r.progress.getD "[]")
  | none => (1, "[]")

/-- Lines 544-547: `self.last_known_page = last_page;
self.current_page_num = self.last_known_page` — the page the viewer
starts on, taken verbatim from the store. -/
def viewerInitialPage (q : List QueueRow) (path : String) : ℤ :=
  (get_item_details q path).1

/-- Embeds `go_to_page` (lines 1291-1295): a target outside
`[1, total_pages]` returns immediately, leaving `current_page_num`
unchanged; an in-range target becomes the current page. -/
def go_to_page (totalPages current target : ℤ) : ℤ :=
  if 1 ≤ target ∧ target ≤ totalPages then target else current

/-- The current page once loading finishes: `current_page_num` starts
as the persisted value (line 547) and the deferred
`go_to_page(self.last_known_page)` (line 1233) runs against it. -/
def loadedCurrentPage (q : List QueueRow) (path : String) (totalPages : ℤ) : ℤ :=
  go_to_page totalPages (viewerInitialPage q path) (viewerInitialPage q path)

/-! ## Migration from the shared store

Embeds `migrate_pdf_data` (lines 206-258).  The prior-format shared
database `item_manager.db` may hold `pdf_highlights` / `pdf_comments`
rows for many documents; migration copies the rows for one document
path into that document's own store and then deletes them from the
shared store.  A missing `pdf_comments` table raises
`sqlite3.OperationalError("no such table")`, which the handler at
lines 252-254 swallows, leaving all state unchanged. -/

/-- The prior-format shared store, as far as migration reads it. -/
structure OldDb where
  hasHighlightsTable : Bool
  hasCommentsTable : Bool
  highlights : List HRow
  comments : List CRow
  deriving DecidableEq

/-- The durable filesystem state migration touches: the per-document
store file (`none` = the file does not exist) and the shared store
file. -/
structure MigState where
  newDb : Option PdfDb
  oldDb : Option OldDb
  deriving DecidableEq

/-- One row of
`INSERT OR IGNORE INTO pdf_highlights VALUES (?, ?, ?, ?, ?, ?, ?, ?)`
(line 238): all columns explicit, including `id`; the row is dropped
when it conflicts with the `id` primary key or with the unique
region tuple, and `sqlite_sequence` advances past any inserted id. -/
def insertHighlightRow (db : PdfDb) (r : HRow) : PdfDb :=
  if db.highlights.any (fun e =>
      e.id == r.id || hlTupleMatches r.pdfPath r.page r.x0 r.y0 r.x1 r.y1 e) then db
  else
    { db with
      highlights := db.highlights ++ [r]
      nextHId := max db.nextHId (r.id + 1) }

/-- Runs `executemany` over `insertHighlightRow`. -/
def insertHighlights (db : PdfDb) (rows : List HRow) : PdfDb :=
  rows.foldl insertHighlightRow db

/-- One row of
`INSERT OR IGNORE INTO pdf_comments VALUES (?, ?, ?, ?, ?, ?)`
(line 240): `pdf_comments` has no unique constraint beyond the `id`
primary key. -/
def insertCommentRow (db : PdfDb) (r : CRow) : PdfDb :=
  if db.comments.any (fun e => e.id == r.id) then db
  else
    { db with
      comments := db.comments ++ [r]
      nextCId := max db.nextCId (r.id + 1) }

/-- Runs `executemany` over `insertCommentRow`. -/
def insertComments (db : PdfDb) (rows : List CRow) : PdfDb :=
  rows.foldl insertCommentRow db

/-- Embeds `migrate_pdf_data` (lines 206-258), complete run.  In source
order: return if the per-document store file exists (line 208); return
if the shared store file does not exist (line 212); return if the
shared store has no `pdf_highlights` table (line 220); select this
document's rows from both shared tables (a missing `pdf_comments`
table raises, swallowed by the handler — state unchanged); return if
both selections are empty (line 230); otherwise create the
per-document store, copy both row sets into it, commit, and only then
delete the document's rows from the shared store and commit. -/
def migrate_pdf_data (path : String) (s : MigState) : MigState :=
  match s.newDb with
  | some _ => s
  | none =>
    match s.oldDb with
    | none => s
    | some old =>
      if !old.hasHighlightsTable then s
      else if !old.hasCommentsTable then s
      else
        let hs := old.highlights.filter (fun r => r.pdfPath == path)
        let cs := old.comments.filter (fun r => r.pdfPath == path)
        if hs.isEmpty && cs.isEmpty then s
        else
          { newDb := some (insertComments (insertHighlights emptyPdfDb hs) cs)
            oldDb := some
              { old with
                highlights := old.highlights.filter (fun r => !(r.pdfPath == path))
                comments := old.comments.filter (fun r => !(r.pdfPath == path)) } }

/-- Embeds `migrate_pdf_data` with an injected failure: the run raises at
step `k` of the try block and the handler at lines 252-258 swallows
the exception, so the durable state is whatever had been committed by
then.  Step numbering along the source order of the fallible
operations: steps 0-3 are the shared-store connect, table probe and
the two selects (no durable change); step 4 is
`get_pdf_specific_db_connection`, which creates and commits the empty
per-document store file (line 234, committing at line 203); steps 5-7
are the two `executemany` inserts and the `new_conn.commit()` at
line 242 — the inserts become durable only at step 7; steps 8-11 are
the close, the two shared-store deletes and the `old_conn.commit()` at
line 247 — the deletes become durable only at step 11.  `k ≥ 12` is a
complete run. -/
def migrate_pdf_data_failing (path : String) (s : MigState) (k : ℕ) : MigState :=
  match s.newDb with
  | some _ => s
  | none =>
    match s.oldDb with
    | none => s
    | some old =>
      if !old.hasHighlightsTable then s
      else if !old.hasCommentsTable then s
      else
        let hs := old.highlights.filter (fun r => r.pdfPath == path)
        let cs := old.comments.filter (fun r => r.pdfPath == path)
        if hs.isEmpty && cs.isEmpty then s
        else if k ≤ 4 then s
        else if k ≤ 7 then { s with newDb := some emptyPdfDb }
        else if k ≤ 11 then
          { s with newDb := some (insertComments (insertHighlights emptyPdfDb hs) cs) }
        else migrate_pdf_data path s

/-- The shared store's highlight rows for a document path. -/
def oldHighlightsFor (path : String) (s : MigState) : List HRow :=
  match s.oldDb with
  | none => []
  | some old => old.highlights.filter (fun r => r.pdfPath == path)

/-- The shared store's comment rows for a document path. -/
def oldCommentsFor (path : String) (s : MigState) : List CRow :=
  match s.oldDb with
  | none => []
  | some old => old.comments.filter (fun r => r.pdfPath == path)

/-- The per-document store's highlight rows (empty when the store file
does not exist). -/
def newHighlights (s : MigState) : List HRow :=
  match s.newDb with
  | none => []
  | some db => db.highlights

/-- The per-document store's comment rows. -/
def newComments (s : MigState) : List CRow :=
  match s.newDb with
  | none => []
  | some db => db.comments

/-! ## Store lemmas -/

/-- The freshly inserted highlight row matches its own unique tuple. -/
lemma hlTupleMatches_self (path : String) (page : ℤ) (x0 y0 x1 y1 : ℚ)
    (i : ℕ) (t : String) :
    hlTupleMatches path page x0 y0 x1 y1 ⟨i, path, page, x0, y0, x1, y1, t⟩ = true := by
  simp [hlTupleMatches]

/-- The duplicate test of `INSERT OR IGNORE` sees exactly the rows the
unique-tuple filter keeps. -/
lemma hl_any_iff_count_pos (db : PdfDb) (path : String) (page : ℤ) (x0 y0 x1 y1 : ℚ) :
    db.highlights.any (hlTupleMatches path page x0 y0 x1 y1) = true
      ↔ 0 < hlCount db path page x0 y0 x1 y1 := by
  simp only [hlCount, List.any_eq_true, List.length_pos, ← List.filter_eq_nil_iff]
  constructor
  · rintro ⟨r, hr, hm⟩ hnil
    have := List.filter_eq_nil_iff.mp hnil r hr
    simp [hm] at this
  · intro h
    by_contra hany
    push_neg at hany
    exact h (List.filter_eq_nil_iff.mpr (fun a ha => by
      intro hc
      exact hany a ha hc))

/-- Claim C1: `add_highlight_to_db` is idempotent — with a well-formed
store (at most one row per unique tuple, the invariant the sqlite
`UNIQUE` constraint maintains), a second call with the identical
(doc, page, x0, y0, x1, y1) tuple is a no-op, and afterwards exactly
one stored row has that tuple. -/
theorem addHighlight_idempotent (db : PdfDb) (path : String) (page : ℤ)
    (x0 y0 x1 y1 : ℚ) (t1 t2 : String)
    (hwf : hlCount db path page x0 y0 x1 y1 ≤ 1) :
    add_highlight_to_db (add_highlight_to_db db path page x0 y0 x1 y1 t1)
        path page x0 y0 x1 y1 t2
      = add_highlight_to_db db path page x0 y0 x1 y1 t1
    ∧ hlCount (add_highlight_to_db db path page x0 y0 x1 y1 t1)
        path page x0 y0 x1 y1 = 1 := by
  by_cases h : db.highlights.any (hlTupleMatches path page x0 y0 x1 y1) = true
  · have hpos := (hl_any_iff_count_pos db path page x0 y0 x1 y1).mp h
    have hone : hlCount db path page x0 y0 x1 y1 = 1 := le_antisymm hwf hpos
    simp only [add_highlight_to_db, h, if_true]
    exact ⟨trivial, hone⟩
  · have hzero : hlCount db path page x0 y0 x1 y1 = 0 := by
      by_contra hz
      exact h ((hl_any_iff_count_pos db path page x0 y0 x1 y1).mpr (Nat.pos_of_ne_zero hz))
    have hnil : db.highlights.filter (hlTupleMatches path page x0 y0 x1 y1) = [] :=
      List.length_eq_zero.mp hzero
    have hcount1 : hlCount (add_highlight_to_db db path page x0 y0 x1 y1 t1)
        path page x0 y0 x1 y1 = 1 := by
      simp [add_highlight_to_db, h, hlCount, List.filter_append, hnil,
        hlTupleMatches_self]
    refine ⟨?_, hcount1⟩
    have hany1 : (add_highlight_to_db db path page x0 y0 x1 y1 t1).highlights.any
        (hlTupleMatches path page x0 y0 x1 y1) = true :=
      (hl_any_iff_count_pos _ path page x0 y0 x1 y1).mpr (by omega)
    simp only [add_highlight_to_db, hany1, if_true]
    simp [add_highlight_to_db, h, hlTupleMatches_self]

/-- Witness for C1 at a concrete input: the empty store, region
(10, 10, 50, 20) on page 2. -/
theorem addHighlight_idempotent_witness :
    add_highlight_to_db (add_highlight_to_db emptyPdfDb "A.pdf" 2 10 10 50 20 "x")
        "A.pdf" 2 10 10 50 20 "x"
      = add_highlight_to_db emptyPdfDb "A.pdf" 2 10 10 50 20 "x"
    ∧ hlCount (add_highlight_to_db emptyPdfDb "A.pdf" 2 10 10 50 20 "x")
        "A.pdf" 2 10 10 50 20 = 1 :=
  addHighlight_idempotent emptyPdfDb "A.pdf" 2 10 10 50 20 "x" "x" (by decide)

/-- Claim C9: `remove_highlight_from_db` on an absent region is a
silent no-op — with no exactly matching stored row the store is
unchanged (and no error is possible: the embedding is a total
function) — and in general the call deletes exactly the rows matching
the unique tuple: every non-matching row survives and no matching row
survives. -/
theorem removeHighlight_absent_noop (db : PdfDb) (path : String) (page : ℤ)
    (x0 y0 x1 y1 : ℚ) :
    ((∀ r ∈ db.highlights, hlTupleMatches path page x0 y0 x1 y1 r = false) →
      remove_highlight_from_db db path page x0 y0 x1 y1 = db)
    ∧ (remove_highlight_from_db db path page x0 y0 x1 y1).highlights
        = db.highlights.filter (fun r => !(hlTupleMatches path page x0 y0 x1 y1 r))
    ∧ ∀ r ∈ (remove_highlight_from_db db path page x0 y0 x1 y1).highlights,
        hlTupleMatches path page x0 y0 x1 y1 r = false := by
  refine ⟨?_, rfl, ?_⟩
  · intro habs
    have : db.highlights.filter (fun r => !(hlTupleMatches path page x0 y0 x1 y1 r))
        = db.highlights := by
      apply List.filter_eq_self.mpr
      intro a ha
      simp [habs a ha]
    simp [remove_highlight_from_db, this]
  · intro r hr
    have := (List.mem_filter.mp hr).2
    simpa using this

/-- Witness for C9 at a concrete input: a store holding one highlight
on page 1; removing a different region leaves it unchanged. -/
theorem removeHighlight_absent_noop_witness :
    (remove_highlight_from_db (add_highlight_to_db emptyPdfDb "A.pdf" 1 0 0 5 5 "t")
        "A.pdf" 1 1 1 2 2
      = add_highlight_to_db emptyPdfDb "A.pdf" 1 0 0 5 5 "t") :=
  (removeHighlight_absent_noop (add_highlight_to_db emptyPdfDb "A.pdf" 1 0 0 5 5 "t")
    "A.pdf" 1 1 1 2 2).1 (by decide)

/-- Counterexample to C3 as stated: the claim says each
`add_comment_to_db` call "returns the id it assigned", but the Python
function body has no `return` statement — at the concrete input below
(and every other) the call returns `None`, not an id. -/
theorem addComment_returns_none_counterexample :
    (add_comment_to_db emptyPdfDb "A.pdf" 1 2 3 "hi").2 = none
    ∧ ¬ ∃ i : ℕ, (add_comment_to_db emptyPdfDb "A.pdf" 1 2 3 "hi").2 = some i := by
  constructor
  · rfl
  · rintro ⟨i, hi⟩
    simp [add_comment_to_db] at hi

/-- Claim C3 as amended: `add_comment_to_db` always inserts a fresh
row — even when page, point and text duplicate an existing comment —
two calls append two rows with distinct ids, and each call assigns a
fresh id internally but returns `None` (the function has no `return`
statement). -/
theorem addComment_always_inserts (db : PdfDb) (path : String) (page : ℤ)
    (x y : ℚ) (text : String) :
    ((add_comment_to_db (add_comment_to_db db path page x y text).1
        path page x y text).1).comments
      = db.comments ++ [⟨db.nextCId, path, page, x, y, text⟩,
          ⟨db.nextCId + 1, path, page, x, y, text⟩]
    ∧ db.nextCId ≠ db.nextCId + 1
    ∧ (add_comment_to_db db path page x y text).2 = none := by
  refine ⟨?_, by omega, rfl⟩
  simp [add_comment_to_db]

/-! ## Stable-sort lemmas for the merged annotations listing -/

/-- Inserting into a stable sort does not disturb the subsequence of
any single key class: the new element lands before every element of
equal key, and elements it passes have strictly smaller keys, hence
lie outside the class whenever the new element is in it. -/
lemma filter_key_orderedInsert {α : Type} (key : α → ℤ) (p : ℤ) (x : α) (l : List α) :
    (List.orderedInsert (fun a b => key a ≤ key b) x l).filter (fun e => key e == p)
      = (x :: l).filter (fun e => key e == p) := by
  induction l with
  | nil => simp [List.orderedInsert]
  | cons b bs ih =>
    by_cases hxb : key x ≤ key b
    · simp [List.orderedInsert, hxb]
    · have hbx : key b < key x := by omega
      simp only [List.orderedInsert, if_neg hxb]
      by_cases hbp : key b = p
      · have hxp : ¬ key x = p := by omega
        simp [List.filter_cons, hbp, hxp, ih]
      · by_cases hxp : key x = p
        · simp [List.filter_cons, hbp, hxp, ih]
        · simp [List.filter_cons, hbp, hxp, ih]

/-- A stable sort preserves each key class as a subsequence: filtering
the sorted list to one key value gives exactly the input's elements
with that key, in input order. -/
lemma filter_key_sortByKey {α : Type} (key : α → ℤ) (p : ℤ) (l : List α) :
    (sortByKey key l).filter (fun e => key e == p)
      = l.filter (fun e => key e == p) := by
  induction l with
  | nil => rfl
  | cons x xs ih =>
    show (List.orderedInsert _ x (sortByKey key xs)).filter _ = _
    rw [filter_key_orderedInsert]
    by_cases hxp : key x = p
    · simp [List.filter_cons, hxp, ih]
    · simp [List.filter_cons, hxp, ih]

/-- Indeed `sortByKey` sorts by the key. -/
lemma sorted_sortByKey {α : Type} (key : α → ℤ) (l : List α) :
    List.Sorted (fun a b => key a ≤ key b) (sortByKey key l) :=
  List.sorted_insertionSort (fun a b => key a ≤ key b) l

/-- Counterexample to C4 as stated: in the store built by first
creating a comment (text `c`) on page 1 and then a highlight
(text `h`) on page 1, the merged all-annotations listing is
highlight-first — not the creation order, which was comment-first.
Same-page annotations are grouped by type (all highlights before all
comments), because the merge concatenates the full highlight listing
before the full comment listing and Python's sort is stable. -/
theorem allAnnotations_not_creation_order_counterexample :
    populate_annotations_merged
        (add_highlight_to_db (add_comment_to_db emptyPdfDb "A.pdf" 1 1 1 "c").1
          "A.pdf" 1 0 0 10 10 "h") "A.pdf"
      = [⟨AnnotType.highlight, 1, "h"⟩, ⟨AnnotType.comment, 1, "c"⟩]
    ∧ populate_annotations_merged
        (add_highlight_to_db (add_comment_to_db emptyPdfDb "A.pdf" 1 1 1 "c").1
          "A.pdf" 1 0 0 10 10 "h") "A.pdf"
      ≠ [⟨AnnotType.comment, 1, "c"⟩, ⟨AnnotType.highlight, 1, "h"⟩] := by
  decide

/-- Claim C4 as amended: the merged all-annotations listing is ordered
by page ascending and is stable for equal pages with respect to its
input order, which lists the complete highlight query before the
complete comment query — so for every page, the listing shows that
page's highlights (in id order) followed by that page's comments (in
id order), not the interleaved creation order. -/
theorem allAnnotations_page_sorted_grouped (db : PdfDb) (path : String) (p : ℤ) :
    List.Sorted (fun a b : AnnotEntry => a.page ≤ b.page)
      (populate_annotations_merged db path)
    ∧ (populate_annotations_merged db path).filter (fun e => e.page == p)
      = (get_all_highlights_for_pdf db path).filter (fun e => e.page == p)
        ++ (get_all_comments_for_pdf db path).filter (fun e => e.page == p) := by
  constructor
  · exact sorted_sortByKey (fun e : AnnotEntry => e.page) _
  · show (sortByKey (fun e : AnnotEntry => e.page)
          (get_all_highlights_for_pdf db path ++ get_all_comments_for_pdf db path)).filter
        (fun e => e.page == p) = _
    rw [filter_key_sortByKey, List.filter_append]

/-- Claim C2: a click in the letterbox padding maps to null — whenever
the 1-by-1 pixel rectangle at the click position does not intersect
the scaled image area placed at the computed centering offset, both
the point mapping and the underlying rect mapping return `none` rather
than a document point. -/
theorem click_in_padding_maps_to_none (pix lbl : QSizeI) (pos : ℤ × ℤ) (dpi : ℤ)
    (h : qtIntersects (letterboxImgRect pix lbl) ⟨pos.1, pos.2, 1, 1⟩ = false) :
    convert_widget_pos_to_pdf_point (some pix) lbl pos dpi = none
    ∧ convert_widget_pos_to_pdf_rect (some pix) lbl ⟨pos.1, pos.2, 1, 1⟩ dpi = none := by
  have hrect : convert_widget_pos_to_pdf_rect (some pix) lbl ⟨pos.1, pos.2, 1, 1⟩ dpi
      = none := by
    by_cases hg : (qsizeIsEmpty pix || qsizeIsEmpty lbl) = true
    · simp [convert_widget_pos_to_pdf_rect, hg]
    · simp [convert_widget_pos_to_pdf_rect, hg, h]
  refine ⟨?_, hrect⟩
  simp [convert_widget_pos_to_pdf_point, hrect]

/-- Concrete evaluation: a 100-by-200 page image shown in a
400-by-200 widget is letterboxed to a 100-by-200 area at offset
x = 150, and the 1-by-1 rect at pixel (0, 0) misses it. -/
lemma letterbox_example_misses_origin :
    qtIntersects (letterboxImgRect ⟨100, 200⟩ ⟨400, 200⟩) ⟨0, 0, 1, 1⟩ = false := by
  norm_num [letterboxImgRect, letterbox, pytrunc, qtIntersects]

/-- Witness for C2 at a concrete input: a 100-by-200 page image shown
in a 400-by-200 widget is letterboxed to a 100-by-200 area at offset
x = 150, so a click at pixel (0, 0) lies in the padding and maps to
`none` — not to document point (0, 0). -/
theorem click_in_padding_maps_to_none_witness :
    qtIntersects (letterboxImgRect ⟨100, 200⟩ ⟨400, 200⟩) ⟨0, 0, 1, 1⟩ = false
    ∧ convert_widget_pos_to_pdf_point (some ⟨100, 200⟩) ⟨400, 200⟩ (0, 0) 75 = none :=
  ⟨letterbox_example_misses_origin,
    (click_in_padding_maps_to_none ⟨100, 200⟩ ⟨400, 200⟩ (0, 0) 75
      letterbox_example_misses_origin).1⟩

/-! ## Render-cache lemmas -/

/-- Looking up the key just written returns the written bytes. -/
lemma cacheLookup_cons_self {Img : Type} (fs : List (CacheKey × Img))
    (k : CacheKey) (img : Img) :
    cacheLookup ((k, img) :: fs) k = some img := by
  simp [cacheLookup]

/-- Writing one key leaves every other key's entry untouched. -/
lemma cacheLookup_cons_ne {Img : Type} (fs : List (CacheKey × Img))
    (k k' : CacheKey) (img : Img) (h : k' ≠ k) :
    cacheLookup ((k, img) :: fs) k' = cacheLookup fs k' := by
  have h2 : ¬ (k = k') := fun e => h e.symm
  simp [cacheLookup, List.find?_cons, h2]

/-- On a cache hit the render callback does not run. -/
lemma load_page_hit_renderCalls {Img : Type} (render : ℤ → ℤ → Img)
    (composite : Img → List FRect → List FRect → List (ℚ × ℚ) → Img)
    (key : CacheKey) (h s : List FRect) (c : List (ℚ × ℚ))
    (fs : List (CacheKey × Img)) (img : Img)
    (hhit : cacheLookup fs key = some img) :
    (load_page render composite key h s c fs).renderCalls = 0 := by
  simp [load_page, hhit]

/-- On a cache hit with no overlays, the displayed image is exactly
the cached bytes. -/
lemma load_page_hit_displayed {Img : Type} (render : ℤ → ℤ → Img)
    (composite : Img → List FRect → List FRect → List (ℚ × ℚ) → Img)
    (key : CacheKey) (fs : List (CacheKey × Img)) (img : Img)
    (hhit : cacheLookup fs key = some img) :
    (load_page render composite key [] [] [] fs).displayed = img := by
  simp [load_page, hhit]

/-- Claim C6: the render cache is keyed by (document key, page, DPI)
and a hit skips rendering — starting from a state with no entry for
the key, the first `load_page` call invokes the render callback
exactly once and persists its result under the key, and a second call
for the same key invokes the callback zero times and hands the widget
the bytes persisted on disk (here stated for a page with no overlays,
where the displayed image is the cached one unchanged). -/
theorem renderCache_hit_skips_render {Img : Type} (render : ℤ → ℤ → Img)
    (composite : Img → List FRect → List FRect → List (ℚ × ℚ) → Img)
    (key : CacheKey) (h1 s1 : List FRect) (c1 : List (ℚ × ℚ))
    (h2 s2 : List FRect) (c2 : List (ℚ × ℚ)) (fs : List (CacheKey × Img))
    (hmiss : cacheLookup fs key = none) :
    (load_page render composite key h1 s1 c1 fs).renderCalls = 1
    ∧ (load_page render composite key h2 s2 c2
        (load_page render composite key h1 s1 c1 fs).fs).renderCalls = 0
    ∧ cacheLookup (load_page render composite key h1 s1 c1 fs).fs key
        = some (render key.page key.dpi)
    ∧ (load_page render composite key [] [] []
        (load_page render composite key h1 s1 c1 fs).fs).displayed
        = render key.page key.dpi := by
  have hfs : (load_page render composite key h1 s1 c1 fs).fs
      = (key, render key.page key.dpi) :: fs := by
    simp [load_page, hmiss]
  have hhit : cacheLookup ((key, render key.page key.dpi) :: fs) key
      = some (render key.page key.dpi) := cacheLookup_cons_self fs key _
  refine ⟨by simp [load_page, hmiss], ?_, ?_, ?_⟩
  · rw [hfs]
    exact load_page_hit_renderCalls render composite key h2 s2 c2 _ _ hhit
  · rw [hfs]
    exact hhit
  · rw [hfs]
    exact load_page_hit_displayed render composite key _ _ hhit

/-- Witness for C6 at a concrete input: page 3 at DPI 75 from an empty
cache, with a toy image type and render callback. -/
theorem renderCache_hit_skips_render_witness :
    (load_page (fun p d => p + d) (fun i _ _ _ => i + 1) ⟨"h", 3, 75⟩ [] [] []
      ([] : List (CacheKey × ℤ))).renderCalls = 1
    ∧ (load_page (fun p d => p + d) (fun i _ _ _ => i + 1) ⟨"h", 3, 75⟩ [] [] []
        (load_page (fun p d => p + d) (fun i _ _ _ => i + 1) ⟨"h", 3, 75⟩ [] [] []
          ([] : List (CacheKey × ℤ))).fs).renderCalls = 0 := by
  have h := @renderCache_hit_skips_render ℤ (fun p d => p + d)
    (fun i _ _ _ => i + 1) ⟨"h", 3, 75⟩ [] [] [] [] [] [] [] rfl
  exact ⟨h.1, h.2.1⟩

/-- Claim C7: compositing annotation overlays never mutates the cached
base image — the cache directory after a `load_page` call does not
depend on the highlight, search-hit or comment overlays (they are
painted on a copy), the call touches no cache entry other than its own
key, and keys differing in DPI are distinct entries. -/
theorem compositing_never_mutates_cache {Img : Type} (render : ℤ → ℤ → Img)
    (composite : Img → List FRect → List FRect → List (ℚ × ℚ) → Img)
    (key : CacheKey) (h1 s1 : List FRect) (c1 : List (ℚ × ℚ))
    (h2 s2 : List FRect) (c2 : List (ℚ × ℚ)) (fs : List (CacheKey × Img)) :
    (load_page render composite key h1 s1 c1 fs).fs
      = (load_page render composite key h2 s2 c2 fs).fs
    ∧ (∀ k' : CacheKey, k' ≠ key →
        cacheLookup (load_page render composite key h1 s1 c1 fs).fs k'
          = cacheLookup fs k')
    ∧ (∀ k1 k2 : CacheKey, k1.pdfHash = k2.pdfHash → k1.page = k2.page →
        k1.dpi ≠ k2.dpi → k1 ≠ k2) := by
  refine ⟨?_, ?_, ?_⟩
  · cases hc : cacheLookup fs key <;> simp [load_page, hc]
  · intro k' hk'
    cases hc : cacheLookup fs key with
    | some img => simp [load_page, hc]
    | none =>
      have hfs : (load_page render composite key h1 s1 c1 fs).fs
          = (key, render key.page key.dpi) :: fs := by
        simp [load_page, hc]
      rw [hfs]
      exact cacheLookup_cons_ne fs key k' _ hk'
  · intro k1 k2 _ _ hdpi h12
    exact hdpi (congrArg CacheKey.dpi h12)

/-- Witness for C7 at a concrete input: a call for page 3 at DPI 75
leaves the entry for DPI 150 (present beforehand) untouched, and the
two keys are distinct. -/
theorem compositing_never_mutates_cache_witness :
    cacheLookup (load_page (fun p d => p + d) (fun i _ _ _ => i + 1) ⟨"h", 3, 75⟩
        [⟨0, 0, 1, 1⟩] [] [] [(⟨"h", 3, 150⟩, (42 : ℤ))]).fs ⟨"h", 3, 150⟩
      = cacheLookup [(⟨"h", 3, 150⟩, (42 : ℤ))] ⟨"h", 3, 150⟩
    ∧ (⟨"h", 3, 150⟩ : CacheKey) ≠ ⟨"h", 3, 75⟩ := by
  have h := @compositing_never_mutates_cache ℤ (fun p d => p + d)
    (fun i _ _ _ => i + 1) ⟨"h", 3, 75⟩ [⟨0, 0, 1, 1⟩] [] [] [] [] []
    [(⟨"h", 3, 150⟩, (42 : ℤ))]
  exact ⟨h.2.1 ⟨"h", 3, 150⟩ (by decide), h.2.2 ⟨"h", 3, 150⟩ ⟨"h", 3, 75⟩ rfl rfl
    (by decide)⟩

/-- Counterexample to C5 as stated: with a persisted last page of 100
for a document that now has 5 pages, the page obtained on load is 100
— outside [1, totalPages].  Nothing clamps the persisted value:
`__init__` copies it into `current_page_num` verbatim and the deferred
`go_to_page` silently refuses out-of-range targets instead of
clamping. -/
theorem lastPage_not_clamped_counterexample :
    loadedCurrentPage [⟨"T", "a.pdf", some 100, some "[]"⟩] "a.pdf" 5 = 100
    ∧ ¬ (1 ≤ loadedCurrentPage [⟨"T", "a.pdf", some 100, some "[]"⟩] "a.pdf" 5
          ∧ loadedCurrentPage [⟨"T", "a.pdf", some 100, some "[]"⟩] "a.pdf" 5 ≤ 5) := by
  decide

/-- Claim C5 as amended: the page obtained on load is the persisted
`last_page` (defaulting to 1) used as-is, with no clamping;
`go_to_page` leaves the current page unchanged for any out-of-range
target; and the loaded page lies in [1, totalPages] exactly when the
persisted value already does. -/
theorem lastPage_loaded_unclamped (q : List QueueRow) (path : String) (total : ℤ) :
    loadedCurrentPage q path total = viewerInitialPage q path
    ∧ (∀ cur t : ℤ, ¬ (1 ≤ t ∧ t ≤ total) → go_to_page total cur t = cur)
    ∧ ((1 ≤ viewerInitialPage q path ∧ viewerInitialPage q path ≤ total) →
        1 ≤ loadedCurrentPage q path total ∧ loadedCurrentPage q path total ≤ total) := by
  have hsame : loadedCurrentPage q path total = viewerInitialPage q path := by
    unfold loadedCurrentPage go_to_page
    split <;> rfl
  refine ⟨hsame, ?_, ?_⟩
  · intro cur t h
    simp [go_to_page, h]
  · intro h
    rw [hsame]
    exact h

/-- Witness for C5 (amended) at a concrete input: persisted last page
3 of 5 loads as page 3; a jump to page 7 of 5 is a silent no-op. -/
theorem lastPage_loaded_unclamped_witness :
    loadedCurrentPage [⟨"T", "a.pdf", some 3, none⟩] "a.pdf" 5
      = viewerInitialPage [⟨"T", "a.pdf", some 3, none⟩] "a.pdf"
    ∧ go_to_page 5 2 7 = 2
    ∧ (1 ≤ loadedCurrentPage [⟨"T", "a.pdf", some 3, none⟩] "a.pdf" 5
        ∧ loadedCurrentPage [⟨"T", "a.pdf", some 3, none⟩] "a.pdf" 5 ≤ 5) :=
  ⟨(lastPage_loaded_unclamped [⟨"T", "a.pdf", some 3, none⟩] "a.pdf" 5).1,
    (lastPage_loaded_unclamped [⟨"T", "a.pdf", some 3, none⟩] "a.pdf" 5).2.1 2 7
      (by decide),
    (lastPage_loaded_unclamped [⟨"T", "a.pdf", some 3, none⟩] "a.pdf" 5).2.2
      (by decide)⟩

/-! ## Migration lemmas -/

/-- If the per-document store file exists, migration returns without
touching anything. -/
lemma migrate_noop_of_newDb (path : String) (s : MigState)
    (h : (s.newDb).isSome = true) : migrate_pdf_data path s = s := by
  rcases s with ⟨newDb, oldDb⟩
  cases newDb with
  | some d => rfl
  | none => simp at h

/-- Each migration run either changes nothing or leaves the
per-document store file in existence. -/
lemma migrate_fixes_or_creates (path : String) (s : MigState) :
    migrate_pdf_data path s = s
    ∨ ((migrate_pdf_data path s).newDb).isSome = true := by
  rcases s with ⟨newDb, oldDb⟩
  cases newDb with
  | some d => left; rfl
  | none =>
    cases oldDb with
    | none => left; rfl
    | some old =>
      simp only [migrate_pdf_data]
      split_ifs with h1 h2 h3
      · left; rfl
      · left; rfl
      · left; rfl
      · right; rfl

/-- Claim C8: migration is guarded and idempotent — when the
per-document store already exists `migrate_pdf_data` does no work at
all (it never overwrites the per-document store), and running the
migration redundantly leaves the same final state as running it
once. -/
theorem migrate_guarded_idempotent :
    (∀ (s : MigState) (path : String),
      (s.newDb).isSome = true → migrate_pdf_data path s = s)
    ∧ ∀ (s : MigState) (path : String),
        migrate_pdf_data path (migrate_pdf_data path s) = migrate_pdf_data path s := by
  refine ⟨fun s path h => migrate_noop_of_newDb path s h, fun s path => ?_⟩
  rcases migrate_fixes_or_creates path s with h | h
  · rw [h, h]
  · exact migrate_noop_of_newDb path _ h

/-- Witness for C8 at concrete inputs: a state whose per-document
store exists is untouched, and migrating a one-highlight shared store
twice equals migrating it once. -/
theorem migrate_guarded_idempotent_witness :
    migrate_pdf_data "a.pdf" ⟨some emptyPdfDb, none⟩ = ⟨some emptyPdfDb, none⟩
    ∧ migrate_pdf_data "a.pdf"
        (migrate_pdf_data "a.pdf"
          ⟨none, some ⟨true, true, [⟨1, "a.pdf", 1, 0, 0, 1, 1, "t"⟩], []⟩⟩)
      = migrate_pdf_data "a.pdf"
          ⟨none, some ⟨true, true, [⟨1, "a.pdf", 1, 0, 0, 1, 1, "t"⟩], []⟩⟩ :=
  ⟨migrate_guarded_idempotent.1 ⟨some emptyPdfDb, none⟩ "a.pdf" (by decide),
    migrate_guarded_idempotent.2
      ⟨none, some ⟨true, true, [⟨1, "a.pdf", 1, 0, 0, 1, 1, "t"⟩], []⟩⟩ "a.pdf"⟩

/-- Inserting comment rows never touches the highlights table. -/
lemma insertComments_highlights (rows : List CRow) :
    ∀ db : PdfDb, (insertComments db rows).highlights = db.highlights := by
  induction rows with
  | nil => intro db; rfl
  | cons r0 rest ih =>
    intro db
    show (insertComments (insertCommentRow db r0) rest).highlights = _
    rw [ih]
    by_cases h : db.comments.any (fun e => e.id == r0.id) = true
    · simp [insertCommentRow, h]
    · simp [insertCommentRow, h]

/-- An `INSERT OR IGNORE` only appends: existing highlight rows
survive. -/
lemma mem_insertHighlights_mono (rows : List HRow) :
    ∀ (db : PdfDb) (e : HRow), e ∈ db.highlights →
      e ∈ (insertHighlights db rows).highlights := by
  induction rows with
  | nil => intro db e he; exact he
  | cons r0 rest ih =>
    intro db e he
    show e ∈ (insertHighlights (insertHighlightRow db r0) rest).highlights
    apply ih
    by_cases h : db.highlights.any (fun x =>
        x.id == r0.id || hlTupleMatches r0.pdfPath r0.page r0.x0 r0.y0 r0.x1 r0.y1 x) = true
    · simpa [insertHighlightRow, h] using he
    · simp only [insertHighlightRow, h]
      simp [he]

/-- An `INSERT OR IGNORE` only appends: existing comment rows survive. -/
lemma mem_insertComments_mono (rows : List CRow) :
    ∀ (db : PdfDb) (e : CRow), e ∈ db.comments →
      e ∈ (insertComments db rows).comments := by
  induction rows with
  | nil => intro db e he; exact he
  | cons r0 rest ih =>
    intro db e he
    show e ∈ (insertComments (insertCommentRow db r0) rest).comments
    apply ih
    by_cases h : db.comments.any (fun x => x.id == r0.id) = true
    · simpa [insertCommentRow, h] using he
    · simp only [insertCommentRow, h]
      simp [he]

/-- Every highlight row handed to the `INSERT OR IGNORE` batch ends up
represented in the table: either the row itself is inserted, or a row
that caused the ignore — one sharing its id or its unique region
tuple — is already there. -/
lemma insertHighlights_covers (rows : List HRow) :
    ∀ (db : PdfDb) (r : HRow), r ∈ rows →
      ∃ r' ∈ (insertHighlights db rows).highlights,
        r'.id = r.id
        ∨ hlTupleMatches r.pdfPath r.page r.x0 r.y0 r.x1 r.y1 r' = true := by
  induction rows with
  | nil => intro db r hr; cases hr
  | cons r0 rest ih =>
    intro db r hr
    rcases List.mem_cons.mp hr with rfl | hr'
    · by_cases h : db.highlights.any (fun e =>
          e.id == r.id || hlTupleMatches r.pdfPath r.page r.x0 r.y0 r.x1 r.y1 e) = true
      · obtain ⟨e, he, hpe⟩ := List.any_eq_true.mp h
        refine ⟨e, ?_, ?_⟩
        · show e ∈ (insertHighlights (insertHighlightRow db r) rest).highlights
          have hrow : insertHighlightRow db r = db := by
            simp only [insertHighlightRow, h, if_true]
          rw [hrow]
          exact mem_insertHighlights_mono rest db e he
        · have hpe' : e.id = r.id
              ∨ hlTupleMatches r.pdfPath r.page r.x0 r.y0 r.x1 r.y1 e = true := by
            simpa using hpe
          exact hpe'
      · refine ⟨r, ?_, Or.inl rfl⟩
        show r ∈ (insertHighlights (insertHighlightRow db r) rest).highlights
        apply mem_insertHighlights_mono
        simp only [insertHighlightRow, h]
        simp
    · exact ih (insertHighlightRow db r0) r hr'

/-- Every comment row handed to the `INSERT OR IGNORE` batch ends up
represented by id: either inserted, or ignored because a row with the
same id exists. -/
lemma insertComments_covers (rows : List CRow) :
    ∀ (db : PdfDb) (r : CRow), r ∈ rows →
      ∃ r' ∈ (insertComments db rows).comments, r'.id = r.id := by
  induction rows with
  | nil => intro db r hr; cases hr
  | cons r0 rest ih =>
    intro db r hr
    rcases List.mem_cons.mp hr with rfl | hr'
    · by_cases h : db.comments.any (fun e => e.id == r.id) = true
      · obtain ⟨e, he, hpe⟩ := List.any_eq_true.mp h
        refine ⟨e, ?_, by simpa using hpe⟩
        show e ∈ (insertComments (insertCommentRow db r) rest).comments
        have hrow : insertCommentRow db r = db := by
          simp only [insertCommentRow, h, if_true]
        rw [hrow]
        exact mem_insertComments_mono rest db e he
      · refine ⟨r, ?_, rfl⟩
        show r ∈ (insertComments (insertCommentRow db r) rest).comments
        apply mem_insertComments_mono
        simp only [insertCommentRow, h]
        simp
    · exact ih (insertCommentRow db r0) r hr'

/-- A failure at any step up to and including the shared-store commit
leaves the shared store's rows for the document intact. -/
lemma migrate_failing_preserves_old (path : String) (s : MigState) (k : ℕ)
    (hk : k ≤ 11) :
    oldHighlightsFor path (migrate_pdf_data_failing path s k) = oldHighlightsFor path s
    ∧ oldCommentsFor path (migrate_pdf_data_failing path s k) = oldCommentsFor path s := by
  rcases s with ⟨newDb, oldDb⟩
  cases newDb with
  | some d => exact ⟨rfl, rfl⟩
  | none =>
    cases oldDb with
    | none => exact ⟨rfl, rfl⟩
    | some old =>
      simp only [migrate_pdf_data_failing]
      split_ifs <;> exact ⟨rfl, rfl⟩

/-- The complete run (failure point past every step) is the plain
migration. -/
lemma migrate_failing_complete (path : String) (s : MigState) :
    migrate_pdf_data_failing path s 12 = migrate_pdf_data path s := by
  rcases s with ⟨newDb, oldDb⟩
  cases newDb with
  | some d => rfl
  | none =>
    cases oldDb with
    | none => rfl
    | some old =>
      simp only [migrate_pdf_data_failing, migrate_pdf_data]
      split_ifs with h1 h2 h3 h4 h5 h6 <;> first | rfl | omega

/-- Migration never loses a highlight row: each shared-store highlight
row for the document either stays in the shared store or is
represented (by id or by unique region tuple) in the per-document
store. -/
lemma migrate_covers_highlights (path : String) (s : MigState) :
    ∀ r ∈ oldHighlightsFor path s,
      r ∈ oldHighlightsFor path (migrate_pdf_data path s)
      ∨ ∃ r' ∈ newHighlights (migrate_pdf_data path s),
          r'.id = r.id
          ∨ hlTupleMatches r.pdfPath r.page r.x0 r.y0 r.x1 r.y1 r' = true := by
  rcases s with ⟨newDb, oldDb⟩
  cases newDb with
  | some d => intro r hr; exact Or.inl hr
  | none =>
    cases oldDb with
    | none => intro r hr; cases hr
    | some old =>
      intro r hr
      simp only [migrate_pdf_data]
      split_ifs with h1 h2 h3
      · exact Or.inl hr
      · exact Or.inl hr
      · exact Or.inl hr
      · right
        have hr' : r ∈ old.highlights.filter (fun x => x.pdfPath == path) := hr
        have := insertHighlights_covers (old.highlights.filter (fun x => x.pdfPath == path))
          emptyPdfDb r hr'
        obtain ⟨r', hr'mem, hd⟩ := this
        refine ⟨r', ?_, hd⟩
        show r' ∈ newHighlights _
        simp only [newHighlights]
        rw [insertComments_highlights]
        exact hr'mem

/-- Migration never loses a comment row: each shared-store comment row
for the document either stays in the shared store or is represented by
id in the per-document store. -/
lemma migrate_covers_comments (path : String) (s : MigState) :
    ∀ r ∈ oldCommentsFor path s,
      r ∈ oldCommentsFor path (migrate_pdf_data path s)
      ∨ ∃ r' ∈ newComments (migrate_pdf_data path s), r'.id = r.id := by
  rcases s with ⟨newDb, oldDb⟩
  cases newDb with
  | some d => intro r hr; exact Or.inl hr
  | none =>
    cases oldDb with
    | none => intro r hr; cases hr
    | some old =>
      intro r hr
      simp only [migrate_pdf_data]
      split_ifs with h1 h2 h3
      · exact Or.inl hr
      · exact Or.inl hr
      · exact Or.inl hr
      · right
        have hr' : r ∈ old.comments.filter (fun x => x.pdfPath == path) := hr
        exact insertComments_covers (old.comments.filter (fun x => x.pdfPath == path))
          (insertHighlights emptyPdfDb
            (old.highlights.filter (fun x => x.pdfPath == path))) r hr'

/-- Claim C10: migration never loses annotations on failure — the
shared store's rows for the document are deleted only after the copies
are committed into the per-document store: a failure at any step up to
and including the shared-store commit (in particular at every step
before the per-document commit) leaves the shared rows intact, the
fully completed run is the plain `migrate_pdf_data`, and a completed
run retains every shared row either in place or as a copy in the
per-document store. -/
theorem migration_no_loss_on_failure (path : String) (s : MigState) (k : ℕ)
    (hk : k ≤ 11) :
    oldHighlightsFor path (migrate_pdf_data_failing path s k) = oldHighlightsFor path s
    ∧ oldCommentsFor path (migrate_pdf_data_failing path s k) = oldCommentsFor path s
    ∧ migrate_pdf_data_failing path s 12 = migrate_pdf_data path s
    ∧ (∀ r ∈ oldHighlightsFor path s,
        r ∈ oldHighlightsFor path (migrate_pdf_data path s)
        ∨ ∃ r' ∈ newHighlights (migrate_pdf_data path s),
            r'.id = r.id
            ∨ hlTupleMatches r.pdfPath r.page r.x0 r.y0 r.x1 r.y1 r' = true)
    ∧ (∀ r ∈ oldCommentsFor path s,
        r ∈ oldCommentsFor path (migrate_pdf_data path s)
        ∨ ∃ r' ∈ newComments (migrate_pdf_data path s), r'.id = r.id) :=
  ⟨(migrate_failing_preserves_old path s k hk).1,
    (migrate_failing_preserves_old path s k hk).2,
    migrate_failing_complete path s,
    migrate_covers_highlights path s,
    migrate_covers_comments path s⟩

/-- Witness for C10 at a concrete input: a shared store holding one
highlight and one comment for the document, failing at step 5 (the
highlight copy into the not-yet-committed per-document store). -/
theorem migration_no_loss_on_failure_witness :
    oldHighlightsFor "a.pdf"
        (migrate_pdf_data_failing "a.pdf"
          ⟨none, some ⟨true, true, [⟨1, "a.pdf", 1, 0, 0, 1, 1, "t"⟩],
            [⟨1, "a.pdf", 1, 2, 3, "c"⟩]⟩⟩ 5)
      = oldHighlightsFor "a.pdf"
          ⟨none, some ⟨true, true, [⟨1, "a.pdf", 1, 0, 0, 1, 1, "t"⟩],
            [⟨1, "a.pdf", 1, 2, 3, "c"⟩]⟩⟩
    ∧ oldCommentsFor "a.pdf"
        (migrate_pdf_data_failing "a.pdf"
          ⟨none, some ⟨true, true, [⟨1, "a.pdf", 1, 0, 0, 1, 1, "t"⟩],
            [⟨1, "a.pdf", 1, 2, 3, "c"⟩]⟩⟩ 5)
      = oldCommentsFor "a.pdf"
          ⟨none, some ⟨true, true, [⟨1, "a.pdf", 1, 0, 0, 1, 1, "t"⟩],
            [⟨1, "a.pdf", 1, 2, 3, "c"⟩]⟩⟩ :=
  ⟨(migration_no_loss_on_failure "a.pdf"
      ⟨none, some ⟨true, true, [⟨1, "a.pdf", 1, 0, 0, 1, 1, "t"⟩],
        [⟨1, "a.pdf", 1, 2, 3, "c"⟩]⟩⟩ 5 (by decide)).1,
    (migration_no_loss_on_failure "a.pdf"
      ⟨none, some ⟨true, true, [⟨1, "a.pdf", 1, 0, 0, 1, 1, "t"⟩],
        [⟨1, "a.pdf", 1, 2, 3, "c"⟩]⟩⟩ 5 (by decide)).2.1⟩

end PdfToAnki
